import Mathlib

/-!
Verification of the Fireflies live-transcription proxy against its design
specification. The definitions below are a shallow embedding of the
TypeScript sources: the fragment buffer and compactor, the database update
of DatabaseService, the TranscriptionManager session operations (modelled as
pure state transformers over an explicit ManagerState, with the outcome of
each persistence operation supplied as an explicit oracle argument and the
observable side effects collected in an action trace), and the POST /start
route handler.
-/

namespace FirefliesProxy

/-- A transcript fragment as received from the upstream provider
(the TranscriptionEvent interface of the transcription manager). -/
structure TranscriptionEvent where
  transcript_id : String
  chunk_id : String
  text : String
  speaker_name : String
  start_time : Int
  end_time : Int
deriving Repr, DecidableEq

/-- One JavaScript Map.set step on an insertion-ordered association list:
an existing key keeps its original position and is remapped to the new
value; a fresh key is appended at the end. -/
def mapSet (m : List (String × TranscriptionEvent)) (k : String) (v : TranscriptionEvent) :
    List (String × TranscriptionEvent) :=
  match m with
  | [] => [(k, v)]
  | (k', v') :: rest => if k' = k then (k, v) :: rest else (k', v') :: mapSet rest k v

/-- JavaScript Map lookup (first matching key; keys are unique in maps built
by mapSet from the empty map). -/
def mapGet (m : List (String × TranscriptionEvent)) (k : String) : Option TranscriptionEvent :=
  match m with
  | [] => none
  | (k', v) :: rest => if k' = k then some v else mapGet rest k

/-- The chunks map of processBufferToTranscript:
for (const event of this.buffer) chunks.set(event.chunk_id, event). -/
def buildChunks (buffer : List TranscriptionEvent) : List (String × TranscriptionEvent) :=
  buffer.foldl (fun m e => mapSet m e.chunk_id e) []

/-- Array.from(chunks.values()) -/
def chunkValues (buffer : List TranscriptionEvent) : List TranscriptionEvent :=
  (buildChunks buffer).map Prod.snd

/-- The sort comparator (a, b) => a.start_time - b.start_time as the ordering
relation it realises. -/
def startLE (a b : TranscriptionEvent) : Prop := a.start_time ≤ b.start_time

instance : DecidableRel startLE := fun a b =>
  inferInstanceAs (Decidable (a.start_time ≤ b.start_time))

instance : IsTotal TranscriptionEvent startLE :=
  ⟨fun a b => Int.le_total a.start_time b.start_time⟩

instance : IsTrans TranscriptionEvent startLE :=
  ⟨fun _ _ _ hab hbc => le_trans hab hbc⟩

/-- .sort((a, b) => a.start_time - b.start_time) over the deduplicated chunk
values (a stable sort by ascending start_time). -/
def sortedChunks (buffer : List TranscriptionEvent) : List TranscriptionEvent :=
  List.insertionSort startLE (chunkValues buffer)

/-- text.trim(): whitespace stripped from both ends (executable model of the
JavaScript String.prototype.trim). -/
def jsTrim (s : String) : String :=
  String.mk (((s.data.dropWhile Char.isWhitespace).reverse.dropWhile Char.isWhitespace).reverse)

/-- The .map step of processBufferToTranscript: speaker_name defaulted through
JavaScript truthiness (the empty string falls back to 'Unknown Speaker'), and
an empty-after-trim text with no identified speaker rendered as the empty
placeholder line. -/
def formatLine (e : TranscriptionEvent) : String :=
  let speaker := if e.speaker_name = "" then "Unknown Speaker" else e.speaker_name
  let text := e.text
  if jsTrim text = "" ∧ speaker = "Unknown Speaker" then ""
  else speaker ++ ": " ++ text

/-- The formatted lines after .filter(line => line.length > 0). -/
def compactLines (buffer : List TranscriptionEvent) : List String :=
  ((sortedChunks buffer).map formatLine).filter (fun l => 0 < l.length)

/-- TranscriptionManager.processBufferToTranscript. -/
def processBufferToTranscript (buffer : List TranscriptionEvent) : String :=
  String.intercalate "\n" (compactLines buffer)

/-- The last fragment of the buffer carrying the given chunk id, if any. -/
def lastFor (buffer : List TranscriptionEvent) (id : String) : Option TranscriptionEvent :=
  match buffer with
  | [] => none
  | e :: rest =>
    match lastFor rest id with
    | some x => some x
    | none => if e.chunk_id = id then some e else none

/-! ### Persistence gateway (DatabaseService) -/

/-- The status column of a transcription_requests row. -/
inductive DbStatus
  | processing
  | completed
  | error
deriving Repr, DecidableEq

/-- The columns of a transcription_requests row the update path touches. -/
structure DbRecord where
  content : Option String
  status : DbStatus
  error_message : Option String
deriving Repr, DecidableEq

/-- DatabaseService.updateTranscriptionRequest on a successfully fetched
existing row: JavaScript truthiness appends with a newline only when the
existing content is non-null AND non-empty (`existingRequest.content ? ...`);
`if (status)` installs any provided status; `if (errorMessage !== undefined)`
installs any provided error message. -/
def updateTranscriptionRequest (rec : DbRecord) (segmentContent : String)
    (status : Option DbStatus) (errorMessage : Option String) : DbRecord :=
  let newContent :=
    match rec.content with
    | some c => if c = "" then segmentContent else c ++ "\n" ++ segmentContent
    | none => segmentContent
  { content := some newContent
    status := match status with | some st => st | none => rec.status
    error_message := match errorMessage with | some m => some m | none => rec.error_message }

/-! ### TranscriptionManager session state and operations

Each manager method is embedded as a pure transformer of an explicit
ManagerState. The outcome of each persistence operation is an explicit
oracle argument — a WriteOutcome for the update calls of the flush paths
(resolved row, resolved null, or rejection), a Boolean resolve/reject for
the terminal status writes — and the observable side effects: database
writes, error log lines, reconnect attempts, are collected in an action
trace. -/

/-- Observable side effects of the manager and route operations. -/
inductive Act where
  | dbWrite (requestId : String) (segment : String) (status : Option DbStatus)
      (errMsg : Option String)
  | logError (msg : String)
  | reconnect
  | createRecord (requestId transcriptionId : String)
  | coreStart (requestId transcriptionId : String)
deriving Repr, DecidableEq

/-- The mutable fields of the TranscriptionManager singleton. Timer fields
record whether the timer is armed; socket records whether a connection
object is held. -/
structure ManagerState where
  socket : Bool
  requestId : Option String
  transcriptionId : Option String
  buffer : List TranscriptionEvent
  lastFlushTime : Int
  inactivityTimer : Bool
  flushTimer : Bool
  isProcessingFlag : Bool
deriving Repr, DecidableEq

/-- Result of a manager operation: the state it leaves behind, whether it
threw (rejected), and the side effects it performed, in order. -/
structure MResult where
  state : ManagerState
  threw : Bool
  acts : List Act
deriving Repr, DecidableEq

/-- FLUSH_INTERVAL = 15000 milliseconds. -/
def FLUSH_INTERVAL : Int := 15000

/-- The three outcomes of DatabaseService.updateTranscriptionRequest as its
callers observe them: the row is fetched and updated (the promise resolves
with the row); the initial fetch fails or the row is missing, which the
service logs and turns into a resolved null — nothing is persisted and no
exception is raised; or the update itself fails and the promise rejects. -/
inductive WriteOutcome
  | ok
  | nullRow
  | throws
deriving Repr, DecidableEq

/-- TranscriptionManager.flushBuffer: returns at once when the buffer is
empty or no requestId is set; otherwise compacts the buffer and calls the
update. On a resolved update — including the null resolution of a failed
fetch, whose return value flushBuffer ignores — this.buffer = [] runs, so
the buffer is cleared even though a null resolution persisted nothing. Only
a rejected update reaches the catch, which logs and rethrows with the
buffer intact. -/
def flushBuffer (s : ManagerState) (w : WriteOutcome) : MResult :=
  match s.requestId with
  | none => ⟨s, false, []⟩
  | some rid =>
    if s.buffer = [] then ⟨s, false, []⟩
    else
      let transcript := processBufferToTranscript s.buffer
      match w with
      | .ok => ⟨{ s with buffer := [] }, false, [.dbWrite rid transcript none none]⟩
      | .nullRow =>
        ⟨{ s with buffer := [] }, false,
          [.logError "Error fetching transcription request for update or request not found"]⟩
      | .throws => ⟨s, true, [.logError "Failed to flush buffer to database"]⟩

/-- TranscriptionManager.handleError: drops the processing flag, clears both
timers, releases the socket, then attempts the status=error write inside a
try/catch that logs and swallows any failure. It never throws. -/
def handleError (s : ManagerState) (message : String) (writeOk : Bool) : MResult :=
  let s1 : ManagerState :=
    { s with isProcessingFlag := false, flushTimer := false,
             inactivityTimer := false, socket := false }
  let acts :=
    match s1.requestId with
    | some rid =>
      if writeOk then [Act.dbWrite rid "" (some .error) (some message)]
      else [Act.logError "Failed to update transcription request with error status"]
    | none => []
  ⟨s1, false, acts ++ [Act.logError message]⟩

/-- TranscriptionManager.stopTranscription: drops the processing flag and
clears the flush timer (the inactivity timer is not touched), flushes a
nonempty buffer, releases the socket, then writes status=completed. A throw
from the flush or from the status write propagates — there is no catch. -/
def stopTranscription (s : ManagerState) (flushW : WriteOutcome) (statusWriteOk : Bool) :
    MResult :=
  let s1 : ManagerState := { s with isProcessingFlag := false, flushTimer := false }
  let f := if s1.buffer = [] then (⟨s1, false, []⟩ : MResult) else flushBuffer s1 flushW
  if f.threw then ⟨f.state, true, f.acts⟩
  else
    let s2 : ManagerState := { f.state with socket := false }
    match s2.requestId with
    | some rid =>
      if statusWriteOk then ⟨s2, false, f.acts ++ [Act.dbWrite rid "" (some .completed) none]⟩
      else ⟨s2, true, f.acts ++ [Act.logError "Failed to update transcription request"]⟩
    | none => ⟨s2, false, f.acts⟩

/-- The socket disconnect handler of setupEventHandlers: while processing, a
reason of io-server-disconnect or io-client-disconnect leads to
socket?.connect() and nothing else; any other reason routes to handleError.
When not processing the handler only logs. -/
def onDisconnect (s : ManagerState) (reason : String) (errWriteOk : Bool) : MResult :=
  if s.isProcessingFlag then
    if reason = "io server disconnect" ∨ reason = "io client disconnect" then
      ⟨s, false, if s.socket then [Act.reconnect] else []⟩
    else handleError s "WebSocket disconnected unexpectedly" errWriteOk
  else ⟨s, false, []⟩

/-- The transcription.broadcast handler of setupEventHandlers: rearms the
inactivity watchdog, pushes the payload onto the buffer, and only when the
flush interval has elapsed since lastFlushTime flushes and records the new
lastFlushTime; a throw from the flush is caught and routed to handleError. -/
def onBroadcast (s : ManagerState) (now : Int) (payload : TranscriptionEvent)
    (flushW : WriteOutcome) (errWriteOk : Bool) : MResult :=
  let s0 : ManagerState := { s with inactivityTimer := true }
  let s1 : ManagerState := { s0 with buffer := s0.buffer ++ [payload] }
  if FLUSH_INTERVAL ≤ now - s1.lastFlushTime then
    let f := flushBuffer s1 flushW
    if f.threw then
      let h := handleError f.state "Error processing transcription event" errWriteOk
      ⟨h.state, false, f.acts ++ h.acts⟩
    else ⟨{ f.state with lastFlushTime := now }, false, f.acts⟩
  else ⟨s1, false, []⟩

/-- One tick of the setInterval callback installed by startFlushTimer:
flushes a nonempty buffer and then records lastFlushTime := now; a rejected
flush aborts the callback, so lastFlushTime is left unchanged and the
rejection goes nowhere (no state transition, no status change). -/
def tickStep (s : ManagerState) (now : Int) (flushW : WriteOutcome) : MResult :=
  if s.buffer = [] then ⟨{ s with lastFlushTime := now }, false, []⟩
  else
    let f := flushBuffer s flushW
    if f.threw then ⟨f.state, false, f.acts⟩
    else ⟨{ f.state with lastFlushTime := now }, false, f.acts⟩

/-- TranscriptionManager.startTranscription on the successful path: installs
the ids, clears the buffer, records lastFlushTime, raises the processing
flag, opens the connection and arms both timers. The previous socket, if
any, is overwritten without being disconnected. -/
def startTranscription (_s : ManagerState) (rid tid : String) (now : Int) : ManagerState :=
  { socket := true, requestId := some rid, transcriptionId := some tid,
    buffer := [], lastFlushTime := now, inactivityTimer := true,
    flushTimer := true, isProcessingFlag := true }

/-- TranscriptionManager.handleInactivityTimeout: clears the inactivity
timer, flushes a nonempty buffer, then calls stopTranscription. -/
def handleInactivityTimeout (s : ManagerState) (flushW stopFlushW : WriteOutcome)
    (statusWriteOk : Bool) : MResult :=
  let s1 : ManagerState := { s with inactivityTimer := false }
  let f := if s1.buffer = [] then (⟨s1, false, []⟩ : MResult) else flushBuffer s1 flushW
  if f.threw then ⟨f.state, true, f.acts⟩
  else
    let r := stopTranscription f.state stopFlushW statusWriteOk
    ⟨r.state, r.threw, f.acts ++ r.acts⟩

/-- processBufferToTranscript as the method call on the manager: it reads
the buffer and assigns nothing. -/
def compactStep (s : ManagerState) : String × ManagerState :=
  (processBufferToTranscript s.buffer, s)

/-! ### The POST /api/transcription/start route handler -/

/-- Outcome of a route handler: HTTP status, the manager it leaves behind,
and the side effects performed. -/
structure RouteResult where
  httpStatus : Nat
  mgr : ManagerState
  acts : List Act
deriving Repr, DecidableEq

/-- router.post('/start'): rejects a missing transcriptionId with 400;
otherwise creates the database record and invokes the core
startTranscription unconditionally — the handler performs no check of
transcriptionManager.isProcessing() before starting. -/
def startRoute (mgr : ManagerState) (transcriptionIdBody clientRequestIdBody : Option String)
    (generatedId : String) (now : Int) : RouteResult :=
  match transcriptionIdBody with
  | none => ⟨400, mgr, []⟩
  | some tid =>
    let rid := match clientRequestIdBody with | some r => r | none => generatedId
    ⟨202, startTranscription mgr rid tid now,
      [Act.createRecord rid tid, Act.coreStart rid tid]⟩

/-! ### Timed fragment traces -/

/-- Does this operation include a periodic-content flush (a database write
of compacted transcript text, carrying no status)? -/
def didFlush (r : MResult) : Bool :=
  r.acts.any fun a =>
    match a with
    | .dbWrite _ _ none none => true
    | _ => false

/-- Delivers a list of timed fragments to the broadcast handler in order
(all persistence writes succeeding) and records the times at which a flush
was performed. -/
def runFrags (s : ManagerState) : List (Int × TranscriptionEvent) → ManagerState × List Int
  | [] => (s, [])
  | (t, p) :: rest =>
    let r := onBroadcast s t p .ok true
    let next := runFrags r.state rest
    (next.1, (if didFlush r then [t] else []) ++ next.2)

/-! ### Demonstration states (concrete inputs for witnesses and counterexamples) -/

/-- A processing session holding one buffered fragment, both timers armed. -/
def demoSession : ManagerState :=
  { socket := true, requestId := some "req-1", transcriptionId := some "t-1",
    buffer := [⟨"t-1", "c1", "hello", "Alice", 0, 1⟩], lastFlushTime := 0,
    inactivityTimer := true, flushTimer := true, isProcessingFlag := true }

/-- A processing session with an empty buffer, both timers armed. -/
def demoIdleBuffer : ManagerState :=
  { socket := true, requestId := some "req-1", transcriptionId := some "t-1",
    buffer := [], lastFlushTime := 0,
    inactivityTimer := true, flushTimer := true, isProcessingFlag := true }

/-- A fragment whose text is empty and whose speaker is unidentified. -/
def blankFragment : TranscriptionEvent := ⟨"t-1", "c1", "", "", 0, 1⟩

/-- An ordinary fragment from a named speaker. -/
def demoFragment : TranscriptionEvent := ⟨"t-1", "c2", "hi", "Bob", 2, 3⟩

/-- A database row whose content is the empty string (non-null). -/
def emptyContentRecord : DbRecord :=
  { content := some "", status := .processing, error_message := none }

/-- A database row holding one flushed transcript block. -/
def filledRecord : DbRecord :=
  { content := some "Alice: hello", status := .processing, error_message := none }

/-! ### Lemmas on the chunk map and the compactor -/

theorem mapGet_mapSet (k k' : String) (v : TranscriptionEvent) :
    ∀ m, mapGet (mapSet m k v) k' = if k = k' then some v else mapGet m k' := by
  intro m
  induction m with
  | nil => rfl
  | cons hd tl ih =>
    obtain ⟨hk, hv⟩ := hd
    by_cases h1 : hk = k
    · subst h1
      by_cases h2 : hk = k' <;> simp [mapSet, mapGet, h2]
    · by_cases h3 : k = k'
      · subst h3; simp [mapSet, mapGet, h1, ih]
      · by_cases h2 : hk = k'
        · subst h2; simp [mapSet, mapGet, h1, h3]
        · simp [mapSet, mapGet, h1, h2, h3, ih]

theorem mem_mapSet (k : String) (v : TranscriptionEvent) (p : String × TranscriptionEvent) :
    ∀ m, p ∈ mapSet m k v → p = (k, v) ∨ p ∈ m := by
  intro m
  induction m with
  | nil => intro h; simpa [mapSet] using h
  | cons hd tl ih =>
    intro h
    obtain ⟨hk, hv⟩ := hd
    by_cases h1 : hk = k
    · rw [mapSet, if_pos h1] at h
      rcases List.mem_cons.mp h with h2 | h2
      · exact Or.inl h2
      · exact Or.inr (List.mem_cons.mpr (Or.inr h2))
    · rw [mapSet, if_neg h1] at h
      rcases List.mem_cons.mp h with h2 | h2
      · exact Or.inr (List.mem_cons.mpr (Or.inl h2))
      · rcases ih h2 with h3 | h3
        · exact Or.inl h3
        · exact Or.inr (List.mem_cons.mpr (Or.inr h3))

theorem keys_mapSet (k : String) (v : TranscriptionEvent) :
    ∀ m, (mapSet m k v).map Prod.fst =
      if k ∈ m.map Prod.fst then m.map Prod.fst else m.map Prod.fst ++ [k] := by
  intro m
  induction m with
  | nil => simp [mapSet]
  | cons hd tl ih =>
    obtain ⟨hk, hv⟩ := hd
    by_cases h1 : hk = k
    · subst h1; simp [mapSet]
    · by_cases h2 : k ∈ tl.map Prod.fst <;>
        simp [mapSet, h1, h2, ih, Ne.symm h1]

theorem nodup_keys_mapSet (m : List (String × TranscriptionEvent)) (k : String)
    (v : TranscriptionEvent) (h : (m.map Prod.fst).Nodup) :
    ((mapSet m k v).map Prod.fst).Nodup := by
  rw [keys_mapSet]
  by_cases h2 : k ∈ m.map Prod.fst
  · simpa [h2] using h
  · simp [h2, List.nodup_append, h]

theorem mapGet_foldl (id : String) :
    ∀ (buffer : List TranscriptionEvent) (m : List (String × TranscriptionEvent)),
      mapGet (buffer.foldl (fun acc e => mapSet acc e.chunk_id e) m) id =
        match lastFor buffer id with
        | some e => some e
        | none => mapGet m id := by
  intro buffer
  induction buffer with
  | nil => intro m; rfl
  | cons e rest ih =>
    intro m
    rw [List.foldl_cons, ih]
    cases hl : lastFor rest id with
    | some x => simp [lastFor, hl]
    | none =>
      by_cases hc : e.chunk_id = id
      · simp [lastFor, hl, hc, mapGet_mapSet]
      · simp [lastFor, hl, hc, mapGet_mapSet]

theorem mapGet_buildChunks (buffer : List TranscriptionEvent) (id : String) :
    mapGet (buildChunks buffer) id = lastFor buffer id := by
  rw [buildChunks, mapGet_foldl]
  cases lastFor buffer id <;> rfl

theorem entry_key_foldl :
    ∀ (buffer : List TranscriptionEvent) (m : List (String × TranscriptionEvent)),
      (∀ p ∈ m, p.1 = p.2.chunk_id) →
      ∀ p ∈ buffer.foldl (fun acc e => mapSet acc e.chunk_id e) m, p.1 = p.2.chunk_id := by
  intro buffer
  induction buffer with
  | nil => intro m hm; simpa using hm
  | cons e rest ih =>
    intro m hm
    rw [List.foldl_cons]
    refine ih _ ?_
    intro p hp
    rcases mem_mapSet e.chunk_id e p m hp with h | h
    · subst h; rfl
    · exact hm p h

theorem entry_key_buildChunks (buffer : List TranscriptionEvent) :
    ∀ p ∈ buildChunks buffer, p.1 = p.2.chunk_id :=
  entry_key_foldl buffer [] (by simp)

theorem nodup_keys_foldl :
    ∀ (buffer : List TranscriptionEvent) (m : List (String × TranscriptionEvent)),
      (m.map Prod.fst).Nodup →
      ((buffer.foldl (fun acc e => mapSet acc e.chunk_id e) m).map Prod.fst).Nodup := by
  intro buffer
  induction buffer with
  | nil => intro m hm; simpa using hm
  | cons e rest ih =>
    intro m hm
    rw [List.foldl_cons]
    exact ih _ (nodup_keys_mapSet m e.chunk_id e hm)

theorem nodup_keys_buildChunks (buffer : List TranscriptionEvent) :
    ((buildChunks buffer).map Prod.fst).Nodup :=
  nodup_keys_foldl buffer [] (by simp)

theorem mapGet_eq_of_mem (k : String) (v : TranscriptionEvent) :
    ∀ m, (m.map Prod.fst).Nodup → (k, v) ∈ m → mapGet m k = some v := by
  intro m
  induction m with
  | nil => intro _ h; simp at h
  | cons hd tl ih =>
    intro hnd hmem
    obtain ⟨hk, hv⟩ := hd
    have hnd2 : hk ∉ tl.map Prod.fst ∧ (tl.map Prod.fst).Nodup := by
      rw [List.map_cons, List.nodup_cons] at hnd
      exact hnd
    rcases List.mem_cons.mp hmem with h | h
    · obtain ⟨h1, h2⟩ := Prod.mk.injEq .. ▸ h
      rw [mapGet, if_pos h1.symm, h2]
    · have hk_in : k ∈ tl.map Prod.fst :=
        List.mem_map.mpr ⟨(k, v), h, rfl⟩
      have hne : hk ≠ k := fun he => hnd2.1 (he ▸ hk_in)
      rw [mapGet, if_neg hne]
      exact ih hnd2.2 h

theorem mapGet_mem (k : String) (v : TranscriptionEvent) :
    ∀ m, mapGet m k = some v → (k, v) ∈ m := by
  intro m
  induction m with
  | nil => intro h; simp [mapGet] at h
  | cons hd tl ih =>
    intro h
    obtain ⟨hk, hv⟩ := hd
    by_cases h1 : hk = k
    · rw [mapGet, if_pos h1] at h
      subst h1
      exact List.mem_cons.mpr (Or.inl (by simpa using h.symm))
    · rw [mapGet, if_neg h1] at h
      exact List.mem_cons.mpr (Or.inr (ih h))

theorem lastFor_isSome_iff (id : String) :
    ∀ buffer : List TranscriptionEvent,
      (∃ x, lastFor buffer id = some x) ↔ id ∈ buffer.map TranscriptionEvent.chunk_id := by
  intro buffer
  induction buffer with
  | nil => simp [lastFor]
  | cons e rest ih =>
    cases hl : lastFor rest id with
    | some x =>
      simp only [lastFor, hl, List.map_cons, List.mem_cons]
      exact ⟨fun _ => Or.inr (ih.mp ⟨x, hl⟩), fun _ => ⟨x, rfl⟩⟩
    | none =>
      have hrest : id ∉ rest.map TranscriptionEvent.chunk_id := by
        intro hmem
        obtain ⟨x, hx⟩ := ih.mpr hmem
        rw [hl] at hx; exact Option.noConfusion hx
      by_cases hc : e.chunk_id = id
      · simp [lastFor, hl, hc]
      · simp [lastFor, hl, hc, hrest, Ne.symm hc]

theorem mem_chunkValues_lastFor (buffer : List TranscriptionEvent) (e : TranscriptionEvent)
    (h : e ∈ chunkValues buffer) : lastFor buffer e.chunk_id = some e := by
  obtain ⟨p, hp, hsnd⟩ := List.mem_map.mp h
  have hk := entry_key_buildChunks buffer p hp
  have hmem : (e.chunk_id, e) ∈ buildChunks buffer := by
    obtain ⟨pk, pv⟩ := p
    simp only at hsnd hk
    rw [← hsnd, ← hk]
    exact hp
  rw [← mapGet_buildChunks]
  exact mapGet_eq_of_mem _ _ _ (nodup_keys_buildChunks buffer) hmem

theorem lastFor_mem_chunkValues (buffer : List TranscriptionEvent) (id : String)
    (e : TranscriptionEvent) (h : lastFor buffer id = some e) :
    e ∈ chunkValues buffer ∧ e.chunk_id = id := by
  have hg : mapGet (buildChunks buffer) id = some e := by
    rw [mapGet_buildChunks]; exact h
  have hm := mapGet_mem _ _ _ hg
  exact ⟨List.mem_map.mpr ⟨(id, e), hm, rfl⟩, (entry_key_buildChunks buffer _ hm).symm⟩

theorem chunkIds_values_eq_keys (buffer : List TranscriptionEvent) :
    (chunkValues buffer).map TranscriptionEvent.chunk_id =
      (buildChunks buffer).map Prod.fst := by
  rw [chunkValues, List.map_map]
  exact List.map_congr_left fun p hp => ((entry_key_buildChunks buffer) p hp).symm

theorem nodup_chunkIds_values (buffer : List TranscriptionEvent) :
    ((chunkValues buffer).map TranscriptionEvent.chunk_id).Nodup := by
  rw [chunkIds_values_eq_keys]
  exact nodup_keys_buildChunks buffer

theorem sortedChunks_perm (buffer : List TranscriptionEvent) :
    (sortedChunks buffer).Perm (chunkValues buffer) :=
  List.perm_insertionSort startLE _

theorem sortedChunks_sorted (buffer : List TranscriptionEvent) :
    (sortedChunks buffer).Sorted startLE :=
  List.sorted_insertionSort startLE _

theorem nodup_chunkIds_sorted (buffer : List TranscriptionEvent) :
    ((sortedChunks buffer).map TranscriptionEvent.chunk_id).Nodup :=
  (((sortedChunks_perm buffer).map TranscriptionEvent.chunk_id).nodup_iff).mpr
    (nodup_chunkIds_values buffer)

theorem filter_chunkId_singleton (e : TranscriptionEvent) :
    ∀ l : List TranscriptionEvent, (l.map TranscriptionEvent.chunk_id).Nodup → e ∈ l →
      l.filter (fun x => x.chunk_id == e.chunk_id) = [e] := by
  intro l
  induction l with
  | nil => intro _ h; simp at h
  | cons a t ih =>
    intro hnd hmem
    have hnd2 : a.chunk_id ∉ t.map TranscriptionEvent.chunk_id ∧
        (t.map TranscriptionEvent.chunk_id).Nodup := by
      rw [List.map_cons, List.nodup_cons] at hnd
      exact hnd
    by_cases hae : a = e
    · subst hae
      have hnone : List.filter (fun x => x.chunk_id == a.chunk_id) t = [] := by
        refine List.filter_eq_nil_iff.mpr fun x hx => ?_
        have : x.chunk_id ≠ a.chunk_id := by
          intro he
          exact hnd2.1 (he ▸ List.mem_map.mpr ⟨x, hx, rfl⟩)
        simpa using this
      simp [List.filter_cons, hnone]
    · have hmem2 : e ∈ t := (List.mem_cons.mp hmem).resolve_left fun h => hae h.symm
      have hne : a.chunk_id ≠ e.chunk_id := by
        intro he
        exact hnd2.1 (he ▸ List.mem_map.mpr ⟨e, hmem2, rfl⟩)
      simp [List.filter_cons, hne, ih hnd2.2 hmem2]

theorem string_length_pos (s : String) (h : s ≠ "") : 0 < s.length := by
  cases s with
  | mk data =>
    cases data with
    | nil => exact absurd rfl h
    | cons c cs => simp [String.length]

/-! ### Claim C4: one line per distinct chunk id, last write wins -/

/-- C4 (amended): for every buffer and every chunk id present in it, the
compaction input contains exactly one fragment with that id — the
last-received one — and, whenever that fragment does not render as the
blank placeholder, its formatted line appears in the compacted output. -/
theorem compaction_one_line_per_chunk_last_write (buffer : List TranscriptionEvent)
    (id : String) (h : id ∈ buffer.map TranscriptionEvent.chunk_id) :
    ∃ e, lastFor buffer id = some e ∧ e.chunk_id = id ∧
      (sortedChunks buffer).filter (fun x => x.chunk_id == id) = [e] ∧
      (formatLine e ≠ "" → formatLine e ∈ compactLines buffer) := by
  obtain ⟨e, he⟩ := (lastFor_isSome_iff id buffer).mpr h
  obtain ⟨hmemv, hid⟩ := lastFor_mem_chunkValues buffer id e he
  have hmems : e ∈ sortedChunks buffer := (sortedChunks_perm buffer).mem_iff.mpr hmemv
  refine ⟨e, he, hid, ?_, ?_⟩
  · have := filter_chunkId_singleton e (sortedChunks buffer)
      (nodup_chunkIds_sorted buffer) hmems
    rwa [hid] at this
  · intro hne
    refine List.mem_filter.mpr ⟨List.mem_map.mpr ⟨e, hmems, rfl⟩, ?_⟩
    simpa using string_length_pos _ hne

/-- C4 counterexample to the claim as stated: a buffer holding one fragment
with a distinct chunk id but empty text and no identified speaker compacts
to zero lines, not to exactly one line per distinct chunk id. -/
theorem compaction_blank_placeholder_counterexample :
    [blankFragment].map TranscriptionEvent.chunk_id = ["c1"] ∧
    compactLines [blankFragment] = [] ∧
    processBufferToTranscript [blankFragment] = "" :=
  ⟨rfl, rfl, rfl⟩

/-- C4 witness: the theorem applied to a concrete two-fragment buffer with a
duplicated chunk id. -/
theorem compaction_one_line_per_chunk_witness :
    ∃ e, lastFor [⟨"t-1", "c1", "hello", "Alice", 0, 1⟩,
                  ⟨"t-1", "c1", "hello world", "Alice", 0, 2⟩] "c1" = some e ∧
      e.chunk_id = "c1" ∧
      (sortedChunks [⟨"t-1", "c1", "hello", "Alice", 0, 1⟩,
                     ⟨"t-1", "c1", "hello world", "Alice", 0, 2⟩]).filter
        (fun x => x.chunk_id == "c1") = [e] ∧
      (formatLine e ≠ "" →
        formatLine e ∈ compactLines [⟨"t-1", "c1", "hello", "Alice", 0, 1⟩,
                                     ⟨"t-1", "c1", "hello world", "Alice", 0, 2⟩]) :=
  compaction_one_line_per_chunk_last_write _ "c1" (by simp)

/-! ### Claim C5: compaction sorts by start time and formats speaker lines -/

/-- C5: compaction returns the deduplicated fragments as a permutation of the
chunk values sorted ascending by start_time, each rendered as a
speaker-colon-text line (speaker defaulted to 'Unknown Speaker'), with blank
placeholder lines dropped, joined with newlines. -/
theorem compact_sorted_speaker_lines (buffer : List TranscriptionEvent) :
    processBufferToTranscript buffer = String.intercalate "\n" (compactLines buffer) ∧
    compactLines buffer = ((sortedChunks buffer).map formatLine).filter
      (fun l => 0 < l.length) ∧
    (sortedChunks buffer).Sorted startLE ∧
    (sortedChunks buffer).Perm (chunkValues buffer) ∧
    (∀ e : TranscriptionEvent,
      (jsTrim e.text = "" ∧ (e.speaker_name = "" ∨ e.speaker_name = "Unknown Speaker") →
        formatLine e = "") ∧
      (¬ (jsTrim e.text = "" ∧ (e.speaker_name = "" ∨ e.speaker_name = "Unknown Speaker")) →
        formatLine e =
          (if e.speaker_name = "" then "Unknown Speaker" else e.speaker_name)
            ++ ": " ++ e.text)) := by
  refine ⟨rfl, rfl, sortedChunks_sorted buffer, sortedChunks_perm buffer, ?_⟩
  intro e
  constructor
  · rintro ⟨ht, hs⟩
    rcases hs with hs | hs <;> simp [formatLine, ht, hs]
  · intro hn
    by_cases hsp : e.speaker_name = ""
    · simp only [formatLine, hsp, if_pos rfl]
      rw [if_neg]
      intro ⟨ht, _⟩
      exact hn ⟨ht, Or.inl hsp⟩
    · simp only [formatLine, hsp, if_neg hsp]
      rw [if_neg]
      intro ⟨ht, hu⟩
      exact hn ⟨ht, Or.inr hu⟩

/-! ### Claim C6: compaction is pure and idempotent; drain then compact is empty -/

/-- C6: compacting mutates nothing, compacting twice without an intervening
put yields identical output, and a successful drain (flushBuffer with the
update resolving the row) leaves an empty buffer whose compaction is the
empty transcript. -/
theorem compact_idempotent_drain_empty (s : ManagerState) (rid : String)
    (h : s.requestId = some rid) :
    (compactStep s).2 = s ∧
    (compactStep ((compactStep s).2)).1 = (compactStep s).1 ∧
    (flushBuffer s .ok).state.buffer = [] ∧
    (compactStep ((flushBuffer s .ok).state)).1 = "" := by
  have hbuf : (flushBuffer s .ok).state.buffer = [] := by
    rw [flushBuffer, h]
    by_cases hb : s.buffer = [] <;> simp [hb]
  refine ⟨rfl, rfl, hbuf, ?_⟩
  show processBufferToTranscript (flushBuffer s .ok).state.buffer = ""
  rw [hbuf]
  rfl

/-- C6 witness: the theorem applied to the concrete demonstration session. -/
theorem compact_idempotent_drain_empty_witness :
    (compactStep demoSession).2 = demoSession ∧
    (compactStep ((compactStep demoSession).2)).1 = (compactStep demoSession).1 ∧
    (flushBuffer demoSession .ok).state.buffer = [] ∧
    (compactStep ((flushBuffer demoSession .ok).state)).1 = "" :=
  compact_idempotent_drain_empty demoSession "req-1" rfl

/-! ### Claim C7: failure modes of the periodic flush -/

/-- C7 (amended): the two failure modes of the persistence update during a
timer-tick flush. A rejected update leaves the whole manager state unchanged
— the buffer keeps every fragment for the next attempt, the session stays
processing, both timers stay as they were — the failure is logged, and no
database write is recorded. An update that resolves null (the fetch failed
or the row was missing) raises no exception, so the tick clears the buffer
even though nothing was persisted: those fragments are lost, not retried;
only the service's fetch-failure log records the loss. -/
theorem periodic_flush_failure_modes (s : ManagerState) (now : Int)
    (rid : String) (h1 : s.requestId = some rid) (h2 : s.buffer ≠ []) :
    (tickStep s now .throws =
      ⟨s, false, [Act.logError "Failed to flush buffer to database"]⟩ ∧
     (tickStep s now .throws).state.buffer = s.buffer ∧
     (tickStep s now .throws).state.isProcessingFlag = s.isProcessingFlag ∧
     (∀ r seg st em, Act.dbWrite r seg st em ∉ (tickStep s now .throws).acts)) ∧
    (tickStep s now .nullRow =
      ⟨{ s with buffer := [], lastFlushTime := now }, false,
        [Act.logError "Error fetching transcription request for update or request not found"]⟩ ∧
     (tickStep s now .nullRow).state.buffer = [] ∧
     (∀ r seg st em, Act.dbWrite r seg st em ∉ (tickStep s now .nullRow).acts)) := by
  have hthrow : tickStep s now .throws =
      ⟨s, false, [Act.logError "Failed to flush buffer to database"]⟩ := by
    simp [tickStep, flushBuffer, h1, h2]
  have hnull : tickStep s now .nullRow =
      ⟨{ s with buffer := [], lastFlushTime := now }, false,
        [Act.logError "Error fetching transcription request for update or request not found"]⟩ := by
    simp [tickStep, flushBuffer, h1, h2]
  refine ⟨⟨hthrow, by rw [hthrow], by rw [hthrow], ?_⟩, hnull, by rw [hnull], ?_⟩
  · intro r seg st em
    rw [hthrow]
    simp
  · intro r seg st em
    rw [hnull]
    simp

/-- C7 counterexample to the claim as stated: when the persistence update of
a periodic flush fails by resolving null (fetch failure or missing row), no
exception reaches flushBuffer and the tick clears the buffer although no
database write happened — the buffered fragments are not left in place and
are never retried. -/
theorem periodic_flush_fetch_failure_counterexample :
    demoSession.buffer ≠ [] ∧
    (tickStep demoSession 15000 .nullRow).state.buffer = [] ∧
    (tickStep demoSession 15000 .nullRow).threw = false ∧
    (tickStep demoSession 15000 .nullRow).acts =
      [Act.logError "Error fetching transcription request for update or request not found"] :=
  ⟨fun h => List.noConfusion h, rfl, rfl, rfl⟩

/-- C7 witness: the amended theorem applied to the concrete demonstration
session. -/
theorem periodic_flush_failure_modes_witness :
    (tickStep demoSession 15000 .throws =
      ⟨demoSession, false, [Act.logError "Failed to flush buffer to database"]⟩ ∧
     (tickStep demoSession 15000 .throws).state.buffer = demoSession.buffer ∧
     (tickStep demoSession 15000 .throws).state.isProcessingFlag =
       demoSession.isProcessingFlag ∧
     (∀ r seg st em, Act.dbWrite r seg st em ∉ (tickStep demoSession 15000 .throws).acts)) ∧
    (tickStep demoSession 15000 .nullRow =
      ⟨{ demoSession with buffer := [], lastFlushTime := 15000 }, false,
        [Act.logError "Error fetching transcription request for update or request not found"]⟩ ∧
     (tickStep demoSession 15000 .nullRow).state.buffer = [] ∧
     (∀ r seg st em, Act.dbWrite r seg st em ∉ (tickStep demoSession 15000 .nullRow).acts)) :=
  periodic_flush_failure_modes demoSession 15000 "req-1" rfl (fun h => List.noConfusion h)

/-! ### Claim C8: handleError is terminal, idempotent, and never throws -/

/-- C8: from any state, handleError never throws, disarms both timers,
releases the connection, drops the processing flag; rerunning it reproduces
the same manager state; with a requestId it records the status=error write
carrying the message when the write succeeds, and logs the swallowed failure
— the in-memory terminal transition having happened either way. -/
theorem handleError_terminal_idempotent (s : ManagerState) (message : String)
    (writeOk : Bool) :
    (handleError s message writeOk).threw = false ∧
    (handleError s message writeOk).state.flushTimer = false ∧
    (handleError s message writeOk).state.inactivityTimer = false ∧
    (handleError s message writeOk).state.socket = false ∧
    (handleError s message writeOk).state.isProcessingFlag = false ∧
    (handleError ((handleError s message writeOk).state) message writeOk).state =
      (handleError s message writeOk).state ∧
    (∀ rid, s.requestId = some rid → writeOk = true →
      Act.dbWrite rid "" (some .error) (some message) ∈ (handleError s message writeOk).acts) ∧
    (∀ rid, s.requestId = some rid → writeOk = false →
      Act.logError "Failed to update transcription request with error status" ∈
        (handleError s message writeOk).acts) := by
  refine ⟨rfl, rfl, rfl, rfl, rfl, rfl, ?_, ?_⟩
  · intro rid hrid hok
    subst hok
    simp [handleError, hrid]
  · intro rid hrid hok
    subst hok
    simp [handleError, hrid]

/-- C8 witness: the theorem applied at a concrete state for both a
successful and a failed persistence write. -/
theorem handleError_terminal_idempotent_witness :
    ((handleError demoSession "boom" true).state.isProcessingFlag = false ∧
      Act.dbWrite "req-1" "" (some .error) (some "boom") ∈
        (handleError demoSession "boom" true).acts) ∧
    ((handleError demoSession "boom" false).threw = false ∧
      Act.logError "Failed to update transcription request with error status" ∈
        (handleError demoSession "boom" false).acts) :=
  ⟨⟨(handleError_terminal_idempotent demoSession "boom" true).2.2.2.2.1,
    (handleError_terminal_idempotent demoSession "boom" true).2.2.2.2.2.2.1 "req-1" rfl rfl⟩,
   ⟨(handleError_terminal_idempotent demoSession "boom" false).1,
    (handleError_terminal_idempotent demoSession "boom" false).2.2.2.2.2.2.2 "req-1" rfl rfl⟩⟩

/-! ### Claim C9: disconnect-reason classification while processing -/

/-- C9: while processing and holding a connection, a disconnect whose reason
is the server- or client-initiated close re-issues connect() on the existing
connection object and changes nothing else; any other reason routes to
handleError, which ends processing and records the status=error write when
it succeeds. -/
theorem disconnect_reason_classification (s : ManagerState) (reason : String)
    (writeOk : Bool) (hproc : s.isProcessingFlag = true) (hsock : s.socket = true) :
    ((reason = "io server disconnect" ∨ reason = "io client disconnect") →
      (onDisconnect s reason writeOk).state = s ∧
      (onDisconnect s reason writeOk).acts = [Act.reconnect]) ∧
    ((reason ≠ "io server disconnect" ∧ reason ≠ "io client disconnect") →
      onDisconnect s reason writeOk =
        handleError s "WebSocket disconnected unexpectedly" writeOk ∧
      (onDisconnect s reason writeOk).state.isProcessingFlag = false ∧
      (∀ rid, s.requestId = some rid → writeOk = true →
        Act.dbWrite rid "" (some .error) (some "WebSocket disconnected unexpectedly") ∈
          (onDisconnect s reason writeOk).acts)) := by
  constructor
  · intro hr
    rw [onDisconnect, if_pos hproc, if_pos hr, hsock]
    exact ⟨rfl, rfl⟩
  · intro ⟨h1, h2⟩
    have hne : ¬ (reason = "io server disconnect" ∨ reason = "io client disconnect") := by
      rintro (h | h)
      · exact h1 h
      · exact h2 h
    have hmain : onDisconnect s reason writeOk =
        handleError s "WebSocket disconnected unexpectedly" writeOk := by
      rw [onDisconnect, if_pos hproc, if_neg hne]
    refine ⟨hmain, by rw [hmain]; rfl, ?_⟩
    intro rid hrid hok
    rw [hmain]
    subst hok
    simp [handleError, hrid]

/-- C9 witness: the theorem applied at a concrete state to one recoverable
and one fatal disconnect reason. -/
theorem disconnect_reason_classification_witness :
    ((onDisconnect demoSession "io server disconnect" true).state = demoSession ∧
      (onDisconnect demoSession "io server disconnect" true).acts = [Act.reconnect]) ∧
    ((onDisconnect demoSession "transport close" true).state.isProcessingFlag = false ∧
      Act.dbWrite "req-1" "" (some .error) (some "WebSocket disconnected unexpectedly") ∈
        (onDisconnect demoSession "transport close" true).acts) :=
  ⟨(disconnect_reason_classification demoSession "io server disconnect" true rfl rfl).1
     (Or.inl rfl),
   ⟨((disconnect_reason_classification demoSession "transport close" true rfl rfl).2
       ⟨by decide, by decide⟩).2.1,
    ((disconnect_reason_classification demoSession "transport close" true rfl rfl).2
       ⟨by decide, by decide⟩).2.2 "req-1" rfl rfl⟩⟩

/-! ### Claim C10: terminal writes append a newline to non-empty content -/

/-- C10 counterexample to the claim as stated: a record whose content is the
non-null empty string is left with content "" by a terminal write with an
empty segment — not with the previous content followed by a newline. -/
theorem terminal_write_empty_content_counterexample :
    emptyContentRecord.content = some "" ∧
    (updateTranscriptionRequest emptyContentRecord "" (some .completed) none).content
      = some "" ∧
    (updateTranscriptionRequest emptyContentRecord "" (some .completed) none).content
      ≠ some ("" ++ "\n") := by
  exact ⟨rfl, rfl, by decide⟩

/-- C10 (amended): a terminal write with an empty segment appends a newline
when the stored content is non-null and non-empty, maps null or empty
content to the empty string, and never truncates: the previous content is
always a prefix of the new content. -/
theorem terminal_write_appends_newline (rec : DbRecord) (c : String)
    (st : Option DbStatus) (em : Option String) (h : rec.content = some c) :
    (c ≠ "" → (updateTranscriptionRequest rec "" st em).content = some (c ++ "\n")) ∧
    (c = "" → (updateTranscriptionRequest rec "" st em).content = some "") ∧
    (∃ tail, (updateTranscriptionRequest rec "" st em).content = some (c ++ tail)) := by
  refine ⟨?_, ?_, ?_⟩
  · intro hne
    simp [updateTranscriptionRequest, h, hne]
  · intro he
    subst he
    simp [updateTranscriptionRequest, h]
  · by_cases hne : c = ""
    · subst hne
      exact ⟨"", by simp [updateTranscriptionRequest, h]⟩
    · exact ⟨"\n", by simp [updateTranscriptionRequest, h, hne]⟩

/-- C10 witness: the theorem applied to a concrete record holding one
transcript block. -/
theorem terminal_write_appends_newline_witness :
    ("Alice: hello" ≠ "" →
      (updateTranscriptionRequest filledRecord "" (some .completed) none).content =
        some ("Alice: hello" ++ "\n")) ∧
    ("Alice: hello" = "" →
      (updateTranscriptionRequest filledRecord "" (some .completed) none).content = some "") ∧
    (∃ tail, (updateTranscriptionRequest filledRecord "" (some .completed) none).content =
      some ("Alice: hello" ++ tail)) :=
  terminal_write_appends_newline filledRecord "Alice: hello" (some .completed) none rfl

/-! ### Claim C1: what stopTranscription actually disarms -/

/-- C1, the code evaluated at the failing input: stopping a processing
session flushes the buffered fragment, closes the socket, writes the
completed status, clears the flush timer — and leaves the inactivity
watchdog armed. -/
theorem stop_leaves_inactivity_watchdog_armed :
    (stopTranscription demoSession .ok true).state.inactivityTimer = true ∧
    (stopTranscription demoSession .ok true).state.flushTimer = false ∧
    (stopTranscription demoSession .ok true).state.isProcessingFlag = false ∧
    (stopTranscription demoSession .ok true).state.socket = false ∧
    (stopTranscription demoSession .ok true).state.buffer = [] ∧
    (stopTranscription demoSession .ok true).threw = false ∧
    (stopTranscription demoSession .ok true).acts =
      [Act.dbWrite "req-1" "Alice: hello" none none,
       Act.dbWrite "req-1" "" (some .completed) none] :=
  ⟨rfl, rfl, rfl, rfl, rfl, rfl, rfl⟩

/-! ### Claim C3: the start route performs no single-session check -/

/-- C3, the code evaluated at the failing input: with a session already
processing, a second start request is not rejected — the route answers 202,
creates the record and invokes the core startTranscription, which overwrites
the singleton session. -/
theorem start_route_lacks_single_session_guard :
    demoSession.isProcessingFlag = true ∧
    (startRoute demoSession (some "t-2") (some "req-2") "gen" 99).httpStatus = 202 ∧
    Act.coreStart "req-2" "t-2" ∈
      (startRoute demoSession (some "t-2") (some "req-2") "gen" 99).acts ∧
    (startRoute demoSession (some "t-2") (some "req-2") "gen" 99).mgr.requestId =
      some "req-2" ∧
    (startRoute demoSession (some "t-2") (some "req-2") "gen" 99).mgr.isProcessingFlag
      = true :=
  ⟨rfl, rfl, by simp [startRoute, startTranscription], rfl, rfl⟩

/-! ### Claim C2: flush cadence -/

theorem onBroadcast_no_early_flush (s : ManagerState) (now : Int)
    (p : TranscriptionEvent) (fw : WriteOutcome) (eOk : Bool)
    (h : now - s.lastFlushTime < FLUSH_INTERVAL) :
    onBroadcast s now p fw eOk =
      ⟨{ s with inactivityTimer := true, buffer := s.buffer ++ [p] }, false, []⟩ := by
  have hnot : ¬ FLUSH_INTERVAL ≤ now - s.lastFlushTime := not_le.mpr h
  simp [onBroadcast, hnot]

theorem onBroadcast_flush_on_elapsed (s : ManagerState) (now : Int)
    (p : TranscriptionEvent) (rid : String) (hrid : s.requestId = some rid)
    (h : FLUSH_INTERVAL ≤ now - s.lastFlushTime) :
    onBroadcast s now p .ok true =
      ⟨{ s with inactivityTimer := true, buffer := [], lastFlushTime := now }, false,
        [Act.dbWrite rid (processBufferToTranscript (s.buffer ++ [p])) none none]⟩ := by
  have hne : s.buffer ++ [p] ≠ [] := by simp
  simp [onBroadcast, flushBuffer, hrid, h, hne]

theorem onBroadcast_elapsed_no_request (s : ManagerState) (now : Int)
    (p : TranscriptionEvent) (hrid : s.requestId = none)
    (h : FLUSH_INTERVAL ≤ now - s.lastFlushTime) :
    onBroadcast s now p .ok true =
      ⟨{ s with inactivityTimer := true, buffer := s.buffer ++ [p], lastFlushTime := now },
        false, []⟩ := by
  simp [onBroadcast, flushBuffer, hrid, h]

theorem chain_head_mono (lf t : Int) (l : List Int) (hle : lf ≤ t)
    (h : List.Chain' (fun a b => a + FLUSH_INTERVAL ≤ b) (t :: l)) :
    List.Chain' (fun a b => a + FLUSH_INTERVAL ≤ b) (lf :: l) := by
  cases l with
  | nil => simp
  | cons x xs =>
    rw [List.chain'_cons] at h ⊢
    exact ⟨by omega, h.2⟩

theorem runFrags_flush_gaps :
    ∀ (evs : List (Int × TranscriptionEvent)) (s : ManagerState),
      List.Pairwise (fun a b => a ≤ b) (evs.map Prod.fst) →
      (∀ t ∈ evs.map Prod.fst, s.lastFlushTime ≤ t) →
      List.Chain' (fun a b => a + FLUSH_INTERVAL ≤ b)
        (s.lastFlushTime :: (runFrags s evs).2) := by
  intro evs
  induction evs with
  | nil => intro s _ _; simp [runFrags]
  | cons ev rest ih =>
    intro s hpw hstart
    obtain ⟨t, p⟩ := ev
    rw [List.map_cons, List.pairwise_cons] at hpw
    obtain ⟨hhead, htail⟩ := hpw
    have hst : s.lastFlushTime ≤ t := hstart t (by simp)
    by_cases hc : FLUSH_INTERVAL ≤ t - s.lastFlushTime
    · cases hrid : s.requestId with
      | some rid =>
        have hob := onBroadcast_flush_on_elapsed s t p rid hrid hc
        simp only [runFrags, hob]
        refine List.chain'_cons.mpr ⟨by omega, ?_⟩
        have hrec := ih { s with inactivityTimer := true, buffer := [], lastFlushTime := t }
          htail (fun u hu => hhead u hu)
        exact hrec
      | none =>
        have hob := onBroadcast_elapsed_no_request s t p hrid hc
        simp only [runFrags, hob]
        have hrec := ih
          { s with inactivityTimer := true, buffer := s.buffer ++ [p], lastFlushTime := t }
          htail (fun u hu => hhead u hu)
        exact chain_head_mono s.lastFlushTime t _ hst hrec
    · have hlt : t - s.lastFlushTime < FLUSH_INTERVAL := not_le.mp hc
      have hob := onBroadcast_no_early_flush s t p .ok true hlt
      simp only [runFrags, hob]
      have hrec := ih { s with inactivityTimer := true, buffer := s.buffer ++ [p] }
        htail (fun u hu => hstart u (List.mem_cons_of_mem _ hu))
      exact hrec

/-- C2 (amended): a fragment arrival within the flush interval performs no
flush — it only rearms the watchdog and appends the fragment — and over any
monotone sequence of fragment arrivals consecutive flush times are at least
one flush interval apart: at most one flush per interval elapsed, never one
flush per fragment. -/
theorem flush_cadence_interval_gap :
    (∀ (s : ManagerState) (now : Int) (p : TranscriptionEvent) (fw : WriteOutcome) (eOk : Bool),
      now - s.lastFlushTime < FLUSH_INTERVAL →
      onBroadcast s now p fw eOk =
        ⟨{ s with inactivityTimer := true, buffer := s.buffer ++ [p] }, false, []⟩) ∧
    (∀ (evs : List (Int × TranscriptionEvent)) (s : ManagerState),
      List.Pairwise (fun a b => a ≤ b) (evs.map Prod.fst) →
      (∀ t ∈ evs.map Prod.fst, s.lastFlushTime ≤ t) →
      List.Chain' (fun a b => a + FLUSH_INTERVAL ≤ b)
        (s.lastFlushTime :: (runFrags s evs).2)) :=
  ⟨onBroadcast_no_early_flush, runFrags_flush_gaps⟩

/-- C2 counterexample to the claim as stated: one interval after the last
flush, a fragment arrival itself performs the flush — a buffer flush in
direct response to a fragment arrival, at neither a timer tick nor a
terminal transition. -/
theorem fragment_arrival_flush_counterexample :
    didFlush (onBroadcast demoIdleBuffer 15000 demoFragment .ok true) = true ∧
    (onBroadcast demoIdleBuffer 15000 demoFragment .ok true).acts =
      [Act.dbWrite "req-1" "Bob: hi" none none] := ⟨rfl, rfl⟩

/-- C2 witness: the theorem applied to a concrete early fragment and a
concrete one-fragment trace. -/
theorem flush_cadence_interval_gap_witness :
    onBroadcast demoIdleBuffer 10 demoFragment .ok true =
      ⟨⟨true, some "req-1", some "t-1", [demoFragment], 0, true, true, true⟩, false, []⟩ ∧
    List.Chain' (fun a b => a + FLUSH_INTERVAL ≤ b)
      (demoIdleBuffer.lastFlushTime :: (runFrags demoIdleBuffer [(10, demoFragment)]).2) :=
  ⟨flush_cadence_interval_gap.1 demoIdleBuffer 10 demoFragment .ok true (by decide),
   flush_cadence_interval_gap.2 [(10, demoFragment)] demoIdleBuffer (by simp)
     (by intro t ht; simp at ht; subst ht; decide)⟩

end FirefliesProxy
